import Mathlib

/-!
Verification development for the LinkStash ingestion-and-enrichment
pipeline.  The repository's `src/` tree contains only the Expo/React-Native
frontend (capture screen, list/detail/search/settings screens and the thin
`api.ts` fetch wrappers); the FastAPI backend that implements NoteStore,
EnrichmentWorker, IngestGateway, SearchEngine and BackupCodec is not part
of `src/`.  Backend behaviour is therefore modelled from the spec
(sections 3, 4 and 5), while the frontend guards (capture-screen
validation, the empty-query search guard, the `title || undefined` body
construction) are embedded directly from the source files.
-/

namespace LinkStash

/-- Modelled from the spec: note content kind, `type` is "one of
{link, text, voice, image} — fixed at creation" (spec section 3); the same
four capture modes appear in the capture screen source. -/
inductive NoteType where
  | link
  | text
  | voice
  | image
deriving DecidableEq, Repr

/-- Modelled from the spec: processing status of a note,
"{pending, processing, ready, failed}" (spec section 3); the backend Note
record is missing from `src/`, whose frontend projection only exposes an
`is_processing` flag. -/
inductive Status where
  | pending
  | processing
  | ready
  | failed
deriving DecidableEq, Repr

/-- Modelled from the spec: the backend Note record (spec section 3 data
model).  `userTitle` records the optional user-supplied title of
`Submit(ownerId, type, rawInput, optionalTitle)` so that enrichment can
"overwrite it only if the user did not supply one" (spec section 4.1);
`rawContent` stores the transcript / extracted text for voice and image
notes (spec section 4.2); `attempts` is the retry attempt counter. -/
structure Note where
  id : String
  ownerId : String
  type : NoteType
  status : Status
  rawInput : String
  userTitle : Option String
  title : String
  thumbnailUrl : String
  summary : String
  tags : List String
  sourcePlatform : String
  rawContent : String
  failureReason : String
  attempts : Nat
  createdAt : Nat
  updatedAt : Nat
deriving DecidableEq, Repr

/-! ### Generic finite-trace helpers -/

/-- `chain step a t` holds when `a :: t` is a run of the step function
`step`: each adjacent pair is a valid step. -/
def chain {α : Type} (step : α → α → Bool) : α → List α → Bool
  | _, [] => true
  | a, b :: t => step a b && chain step b t

/-- Number of adjacent pairs of the run `a :: t` satisfying `p`. -/
def countSteps {α : Type} (p : α → α → Bool) : α → List α → Nat
  | _, [] => 0
  | a, b :: t => (if p a b then 1 else 0) + countSteps p b t

/-- Final state of the run `a :: t`. -/
def lastState {α : Type} (a : α) : List α → α
  | [] => a
  | b :: t => lastState b t

theorem lastState_mem {α : Type} (a : α) (t : List α) :
    lastState a t ∈ a :: t := by
  induction t generalizing a with
  | nil => simp [lastState]
  | cons b t ih =>
      have h := ih b
      simp only [lastState]
      rcases List.mem_cons.mp h with h | h
      · simp [h]
      · simp [List.mem_cons, h]

/-- A property preserved by every step holds at every state of a run. -/
theorem chain_all {α : Type} (step : α → α → Bool) (P : α → Prop)
    (hpres : ∀ a b, step a b = true → P a → P b) :
    ∀ (a : α) (t : List α), chain step a t = true → P a → ∀ x ∈ a :: t, P x := by
  intro a t
  induction t generalizing a with
  | nil =>
      intro _ ha x hx
      simp only [List.mem_singleton] at hx
      exact hx ▸ ha
  | cons b t ih =>
      intro hc ha x hx
      simp only [chain, Bool.and_eq_true] at hc
      rcases List.mem_cons.mp hx with rfl | hx
      · exact ha
      · exact ih b hc.2 (hpres a b hc.1 ha) x hx

/-! ### The enrichment status machine (claim C1)

Modelled from the spec, section 4.2: states
`pending → processing → {ready, failed}` with a bounded retry edge
`processing → pending` (incremented attempt counter on claim, retry only
while the attempt counter is below the fixed maximum). -/

/-- Modelled from the spec: one transition of the EnrichmentWorker status
machine over (status, attempt counter) pairs.  `pending → processing`
claims the note and increments the attempt counter (spec section 4.2);
`processing → ready` and `processing → failed` finish the attempt;
`processing → pending` is the bounded transient-error retry edge. -/
def statusStep (max : Nat) (s s' : Status × Nat) : Bool :=
  match s.1, s'.1 with
  | .pending, .processing => decide (s.2 < max) && (s'.2 == s.2 + 1)
  | .processing, .ready => s'.2 == s.2
  | .processing, .failed => s'.2 == s.2
  | .processing, .pending => decide (s.2 < max) && (s'.2 == s.2)
  | _, _ => false

/-- Adjacent pair that claims a note: `pending → processing`. -/
def claimPair (s s' : Status × Nat) : Bool :=
  s.1 == .pending && s'.1 == .processing

/-- Adjacent pair that retries a note: `processing → pending`. -/
def retryPair (s s' : Status × Nat) : Bool :=
  s.1 == .processing && s'.1 == .pending

theorem statusStep_attempts_le (max : Nat) (s s' : Status × Nat)
    (h : statusStep max s s' = true) (hs : s.2 ≤ max) : s'.2 ≤ max := by
  obtain ⟨c, a⟩ := s
  obtain ⟨c', a'⟩ := s'
  revert h
  cases c <;> cases c' <;> simp [statusStep] <;> omega

theorem statusStep_attempts_eq (max : Nat) (s s' : Status × Nat)
    (h : statusStep max s s' = true) :
    s'.2 = s.2 + (if claimPair s s' then 1 else 0) := by
  obtain ⟨c, a⟩ := s
  obtain ⟨c', a'⟩ := s'
  revert h
  cases c <;> cases c' <;> simp [statusStep, claimPair]

theorem lastState_attempts (max : Nat) :
    ∀ (t : List (Status × Nat)) (s : Status × Nat),
      chain (statusStep max) s t = true →
      (lastState s t).2 = s.2 + countSteps claimPair s t := by
  intro t
  induction t with
  | nil => intro s _; simp [lastState, countSteps]
  | cons b t ih =>
      intro s hc
      simp only [chain, Bool.and_eq_true] at hc
      have hb := statusStep_attempts_eq max s b hc.1
      have := ih b hc.2
      simp only [lastState, countSteps]
      omega

/-- Weight used to bound retries: a run currently in `processing` may owe
one retry that is not yet matched by a later claim. -/
def procWeight (s : Status × Nat) : Nat :=
  if s.1 = .processing then 1 else 0

theorem statusStep_retry_claim (max : Nat) (s s' : Status × Nat)
    (h : statusStep max s s' = true) :
    (if retryPair s s' then 1 else 0) + procWeight s' ≤
      (if claimPair s s' then 1 else 0) + procWeight s := by
  obtain ⟨c, a⟩ := s
  obtain ⟨c', a'⟩ := s'
  revert h
  cases c <;> cases c' <;> simp [statusStep, claimPair, retryPair, procWeight]

theorem retry_le_claim (max : Nat) :
    ∀ (t : List (Status × Nat)) (s : Status × Nat),
      chain (statusStep max) s t = true →
      countSteps retryPair s t ≤ countSteps claimPair s t + procWeight s := by
  intro t
  induction t with
  | nil => intro s _; simp [countSteps]
  | cons b t ih =>
      intro s hc
      simp only [chain, Bool.and_eq_true] at hc
      have h1 := statusStep_retry_claim max s b hc.1
      have h2 := ih b hc.2
      simp only [countSteps]
      omega

/-- C1: along any run of the EnrichmentWorker status machine, every step is
one of `pending→processing`, `processing→ready`, `processing→failed` or
`processing→pending`; `ready` and `failed` have no outgoing transition;
`processing` never steps directly to `processing`; and any run starting
from a freshly created note (`pending`, attempt counter 0) performs at most
`max` retry (`processing→pending`) transitions. -/
theorem C1_status_transitions (max : Nat) :
    (∀ s s' : Status × Nat, statusStep max s s' = true →
        (s.1 = .pending ∧ s'.1 = .processing) ∨
        (s.1 = .processing ∧
          (s'.1 = .ready ∨ s'.1 = .failed ∨ s'.1 = .pending))) ∧
    (∀ a : Nat, ∀ s' : Status × Nat, statusStep max (Status.ready, a) s' = false) ∧
    (∀ a : Nat, ∀ s' : Status × Nat, statusStep max (Status.failed, a) s' = false) ∧
    (∀ a a' : Nat,
        statusStep max (Status.processing, a) (Status.processing, a') = false) ∧
    (∀ t : List (Status × Nat),
        chain (statusStep max) (Status.pending, 0) t = true →
        countSteps retryPair (Status.pending, 0) t ≤ max) := by
  refine ⟨?_, ?_, ?_, ?_, ?_⟩
  · intro s s' h
    obtain ⟨c, a⟩ := s
    obtain ⟨c', a'⟩ := s'
    revert h
    cases c <;> cases c' <;> simp [statusStep]
  · intro a s'
    obtain ⟨c', a'⟩ := s'
    cases c' <;> simp [statusStep]
  · intro a s'
    obtain ⟨c', a'⟩ := s'
    cases c' <;> simp [statusStep]
  · intro a a'
    simp [statusStep]
  · intro t hc
    have h1 := retry_le_claim max t (Status.pending, 0) hc
    have h2 := lastState_attempts max t (Status.pending, 0) hc
    have h3 : (lastState (Status.pending, 0) t).2 ≤ max := by
      have hall := chain_all (statusStep max) (fun x => x.2 ≤ max)
        (fun a b hab ha => statusStep_attempts_le max a b hab ha)
        (Status.pending, 0) t hc (by simp)
      exact hall _ (lastState_mem _ t)
    simp only [procWeight] at h1
    simp at h1
    omega

/-- Concrete run exercising C1: claim, retry, claim, succeed, with retry
count 1 ≤ 3. -/
theorem C1_status_transitions_witness :
    countSteps retryPair (Status.pending, 0)
      [(Status.processing, 1), (Status.pending, 1), (Status.processing, 2),
        (Status.ready, 2)] ≤ 3 :=
  (C1_status_transitions 3).2.2.2.2
    [(Status.processing, 1), (Status.pending, 1), (Status.processing, 2),
      (Status.ready, 2)] (by decide)

/-! ### Exclusivity of the enrichment claim (claim C2)

Modelled from the spec, section 5: "at most one enrichment attempt may be
in flight per note id at any time — enforced by claiming the
`pending → processing` transition atomically (e.g. a single conditional
update)".  The per-note system state tracks the status together with the
number of worker attempts currently in flight for that note; the claim is
a compare-and-swap that succeeds only from `pending`. -/

/-- Modelled from the spec: per-note system state for the exclusivity
argument — status plus the number of enrichment attempts currently in
flight for this note id. -/
structure WorkerState where
  status : Status
  inflight : Nat
deriving DecidableEq, Repr

/-- Modelled from the spec: one atomic event on a note.  A successful
claim moves `pending → processing` and adds an in-flight attempt; finishing
(`ready`/`failed`) or retrying (`pending`) ends the in-flight attempt.  A
failed claim attempt is a no-op and is not a state change. -/
def wstep (w w' : WorkerState) : Bool :=
  match w.status, w'.status with
  | .pending, .processing => w'.inflight == w.inflight + 1
  | .processing, .ready => w'.inflight + 1 == w.inflight
  | .processing, .failed => w'.inflight + 1 == w.inflight
  | .processing, .pending => w'.inflight + 1 == w.inflight
  | _, _ => false

/-- The exclusivity invariant: an attempt is in flight exactly when the
note is in `processing`, and there is never more than one. -/
def exclusiveInv (w : WorkerState) : Prop :=
  w.inflight = (if w.status = .processing then 1 else 0)

theorem wstep_preserves_exclusiveInv (w w' : WorkerState)
    (h : wstep w w' = true) (hw : exclusiveInv w) : exclusiveInv w' := by
  obtain ⟨c, i⟩ := w
  obtain ⟨c', i'⟩ := w'
  simp only [exclusiveInv] at hw ⊢
  revert h
  cases c <;> cases c' <;> simp [wstep] <;> simp_all

/-- Modelled from the spec: the atomic conditional claim of the
`pending → processing` transition; succeeds exactly when the note is still
`pending`, otherwise leaves the state untouched and reports failure. -/
def tryClaim (w : WorkerState) : WorkerState × Bool :=
  if w.status = .pending then ({ status := .processing, inflight := w.inflight + 1 }, true)
  else (w, false)

/-- `runClaims w n` serialises `n` concurrent claim attempts for the same
note (the claim is atomic, so any interleaving is some serialisation) and
counts how many succeed. -/
def runClaims : WorkerState → Nat → WorkerState × Nat
  | w, 0 => (w, 0)
  | w, n + 1 =>
      ((runClaims (tryClaim w).1 n).1,
        (if (tryClaim w).2 then 1 else 0) + (runClaims (tryClaim w).1 n).2)

theorem runClaims_processing (i : Nat) :
    ∀ n : Nat, runClaims { status := .processing, inflight := i } n =
      ({ status := .processing, inflight := i }, 0) := by
  intro n
  induction n with
  | zero => rfl
  | succ n ih => simp [runClaims, tryClaim, ih]

/-- C2: (a) in every state reachable from a freshly created note
(`pending`, nothing in flight) via atomic events, at most one enrichment
attempt is in flight; (b) when `n + 1` workers concurrently attempt the
`pending → processing` claim for the same pending note, exactly one
succeeds and the others leave the note untouched (it ends in `processing`
with a single in-flight attempt). -/
theorem C2_single_flight :
    (∀ (t : List WorkerState) (w : WorkerState),
        chain wstep { status := .pending, inflight := 0 } t = true →
        w ∈ { status := .pending, inflight := 0 } :: t →
        w.inflight ≤ 1) ∧
    (∀ (n i : Nat),
        runClaims { status := .pending, inflight := i } (n + 1) =
          ({ status := .processing, inflight := i + 1 }, 1)) := by
  constructor
  · intro t w hc hw
    have hall := chain_all wstep exclusiveInv wstep_preserves_exclusiveInv
      { status := .pending, inflight := 0 } t hc (by simp [exclusiveInv])
    have := hall w hw
    simp only [exclusiveInv] at this
    rw [this]
    split <;> omega
  · intro n i
    simp [runClaims, tryClaim, runClaims_processing]

/-- Concrete instance of C2: three concurrent claim attempts on a pending
note — exactly one succeeds. -/
theorem C2_single_flight_witness :
    runClaims { status := .pending, inflight := 0 } 3 =
      ({ status := .processing, inflight := 1 }, 1) ∧
    WorkerState.inflight { status := .processing, inflight := 1 } ≤ 1 :=
  ⟨C2_single_flight.2 2 0,
    C2_single_flight.1 [{ status := .processing, inflight := 1 }]
      { status := .processing, inflight := 1 } (by decide) (by decide)⟩

/-! ### NoteStore and IngestGateway (claims C3 and C4)

Modelled from the spec, sections 4.1 and 6: the backend store keyed by
note id and the `Submit(ownerId, type, rawInput, optionalTitle)` entry
point of the IngestGateway.  The frontend caller is `createNote` in
`src/frontend/src/api.ts`, a thin fetch wrapper; the validation and store
logic lives in the missing backend. -/

/-- The note store: the sequence of persisted notes, keyed by `id`. -/
abbrev Store := List Note

/-- Look a note up by id (first match). -/
def lookup (s : Store) (id : String) : Option Note :=
  List.find? (fun n => decide (n.id = id)) s

/-- Modelled from the spec: `GET list notes` — every note of the owner,
"visible to read APIs (list/get/search) immediately after creation,
regardless of status" (spec section 3). -/
def listNotes (s : Store) (owner : String) : List Note :=
  List.filter (fun n => decide (n.ownerId = owner)) s

/-- Modelled from the spec: `GET note by id`, scoped to the owner
(spec section 6; owner mismatch is "not found"). -/
def getNote (s : Store) (owner id : String) : Option Note :=
  match lookup s id with
  | some n => if n.ownerId = owner then some n else none
  | none => none

theorem lookup_append (s m : Store) (id : String) :
    lookup (s ++ m) id = (lookup s id).or (lookup m id) := by
  simp [lookup, List.find?_append]

theorem lookup_append_of_some (s : Store) (id : String) (n : Note)
    (h : lookup s id = some n) (m : Store) : lookup (s ++ m) id = some n := by
  rw [lookup_append, h]
  rfl

theorem lookup_append_of_none (s : Store) (id : String)
    (h : lookup s id = none) (m : Store) : lookup (s ++ m) id = lookup m id := by
  rw [lookup_append, h]
  rfl

theorem lookup_eq_none_iff (s : Store) (id : String) :
    lookup s id = none ↔ ∀ n ∈ s, n.id ≠ id := by
  simp [lookup, List.find?_eq_none]

/-- Modelled from the spec: the backend error taxonomy relevant to submit
(spec section 7); `validationError` is "bad input shape — rejected before
any state is created". -/
inductive ApiError where
  | validationError
  | notFoundError
deriving DecidableEq, Repr

/-- `strPrefix p u` holds when `p` is a prefix of the string `u`. -/
def strPrefix (p u : String) : Bool :=
  decide (u.data.take p.data.length = p.data)

/-- Modelled from the spec: URL parseability check for link submissions
("a parseable URL for link", spec section 4.1; the example rejects
`"not-a-url"`). -/
def isParseableUrl (u : String) : Bool :=
  strPrefix "http://" u || strPrefix "https://" u

/-- Modelled from the spec: submit constraints — `rawInput` non-empty and
of the shape required by `type` (parseable URL for link; non-empty string
for text; non-empty payload reference for voice/image), spec section 4.1. -/
def validSubmission (ty : NoteType) (raw : String) : Bool :=
  !(raw == "") &&
    (match ty with
     | .link => isParseableUrl raw
     | _ => true)

/-- Modelled from the spec: the stub Note created by IngestGateway —
status `pending`, optional user title pre-filled, derived fields empty
(spec sections 4.1 and 3). -/
def mkStub (id owner : String) (ty : NoteType) (raw : String)
    (userTitle : Option String) (now : Nat) : Note :=
  { id := id, ownerId := owner, type := ty, status := .pending,
    rawInput := raw, userTitle := userTitle, title := userTitle.getD "",
    thumbnailUrl := "", summary := "", tags := [], sourcePlatform := "",
    rawContent := "", failureReason := "", attempts := 0,
    createdAt := now, updatedAt := now }

/-- Modelled from the spec: `Submit(ownerId, type, rawInput, optionalTitle)
-> NoteId` of the IngestGateway (spec section 4.1).  On a constraint
violation it fails with `validationError` and leaves the store unchanged;
on success it persists the pending stub and returns the fresh id
immediately — no enrichment step runs inside submit. -/
def submit (s : Store) (owner : String) (ty : NoteType) (raw : String)
    (userTitle : Option String) (newId : String) (now : Nat) :
    Except ApiError String × Store :=
  if validSubmission ty raw then
    (Except.ok newId, s ++ [mkStub newId owner ty raw userTitle now])
  else
    (Except.error ApiError.validationError, s)

/-- C3: a valid submission returns the fresh note id immediately, and that
note is readable through `lookup` / `getNote` / `listNotes` in the
post-submit store with status `pending` — i.e. before any enrichment has
run. -/
theorem C3_submit_pending_visible (s : Store) (owner : String)
    (ty : NoteType) (raw : String) (userTitle : Option String)
    (newId : String) (now : Nat)
    (hval : validSubmission ty raw = true)
    (hfresh : lookup s newId = none) :
    (submit s owner ty raw userTitle newId now).1 = Except.ok newId ∧
    lookup (submit s owner ty raw userTitle newId now).2 newId =
      some (mkStub newId owner ty raw userTitle now) ∧
    getNote (submit s owner ty raw userTitle newId now).2 owner newId =
      some (mkStub newId owner ty raw userTitle now) ∧
    (mkStub newId owner ty raw userTitle now).status = Status.pending ∧
    mkStub newId owner ty raw userTitle now ∈
      listNotes (submit s owner ty raw userTitle newId now).2 owner := by
  have hlook : lookup (s ++ [mkStub newId owner ty raw userTitle now]) newId =
      some (mkStub newId owner ty raw userTitle now) := by
    rw [lookup_append_of_none s newId hfresh]
    simp [lookup, List.find?, mkStub]
  refine ⟨?_, ?_, ?_, rfl, ?_⟩
  · simp [submit, hval]
  · simp only [submit, hval, if_true]
    exact hlook
  · simp only [submit, hval, if_true, getNote]
    rw [hlook]
    simp [mkStub]
  · simp only [submit, hval, if_true, listNotes]
    refine List.mem_filter.mpr ⟨?_, by simp [mkStub]⟩
    simp

/-- Concrete instance of C3: submitting a text note into the empty store. -/
theorem C3_submit_pending_visible_witness :
    (submit [] "owner1" NoteType.text "Remember to buy milk" none "id1" 0).1 =
      Except.ok "id1" ∧
    lookup (submit [] "owner1" NoteType.text "Remember to buy milk" none "id1" 0).2 "id1" =
      some (mkStub "id1" "owner1" NoteType.text "Remember to buy milk" none 0) ∧
    getNote (submit [] "owner1" NoteType.text "Remember to buy milk" none "id1" 0).2
        "owner1" "id1" =
      some (mkStub "id1" "owner1" NoteType.text "Remember to buy milk" none 0) ∧
    (mkStub "id1" "owner1" NoteType.text "Remember to buy milk" none 0).status =
      Status.pending ∧
    mkStub "id1" "owner1" NoteType.text "Remember to buy milk" none 0 ∈
      listNotes (submit [] "owner1" NoteType.text "Remember to buy milk" none "id1" 0).2
        "owner1" :=
  C3_submit_pending_visible [] "owner1" NoteType.text "Remember to buy milk"
    none "id1" 0 (by decide) (by decide)

/-- C4: a submission violating the constraints (unsupported shape: empty
raw input, or an unparseable URL for a link) fails with `validationError`
and creates no note — the store is returned unchanged. -/
theorem C4_invalid_submit_rejected (s : Store) (owner : String)
    (ty : NoteType) (raw : String) (userTitle : Option String)
    (newId : String) (now : Nat)
    (hval : validSubmission ty raw = false) :
    (submit s owner ty raw userTitle newId now).1 =
      Except.error ApiError.validationError ∧
    (submit s owner ty raw userTitle newId now).2 = s :=
  ⟨by simp [submit, hval], by simp [submit, hval]⟩

/-- Concrete instance of C4: the spec example `{type: "link",
url: "not-a-url"}` is rejected and the store stays empty. -/
theorem C4_invalid_submit_rejected_witness :
    (submit [] "owner1" NoteType.link "not-a-url" none "id1" 0).1 =
      Except.error ApiError.validationError ∧
    (submit [] "owner1" NoteType.link "not-a-url" none "id1" 0).2 = [] :=
  C4_invalid_submit_rejected [] "owner1" NoteType.link "not-a-url" none "id1" 0
    (by decide)

/-! ### AIProvider and the enrichment routine (claim C5)

Modelled from the spec, sections 4.2 and 4.3: the capability interface of
external AI calls and the per-type enrichment work, writing derived fields
wholesale. -/

/-- Modelled from the spec: result of `ExtractLinkMetadata(url)` — title,
thumbnail, source platform classification and a raw excerpt
(spec sections 4.2 and 4.3). -/
structure LinkMeta where
  title : String
  thumbnail : String
  sourcePlatform : String
  excerpt : String

/-- Modelled from the spec: the AIProvider capability interface
(spec section 4.3).  `tag` "returns a small deduplicated set of short
lower-case labels", recorded here as the `tagNodup` contract;
`semanticRank` returns the relevant subset most-relevant first or fails
(provider error), in which case SearchEngine falls back locally. -/
structure AIProvider where
  summarize : String → String
  extractLinkMetadata : String → LinkMeta
  transcribe : String → String
  extractTextFromImage : String → String
  tag : String → List String
  semanticRank : String → List Note → Option (List Note)
  tagNodup : ∀ s, (tag s).Nodup

/-- Derived fields computed by one enrichment attempt. -/
structure Derived where
  title : String
  thumbnail : String
  sourcePlatform : String
  summary : String
  tags : List String
  rawContent : String

/-- First line of a text body, used to derive a title for text notes when
the user supplied none (spec section 4.2). -/
def firstLine (s : String) : String :=
  String.mk (s.data.takeWhile (fun c => !(c = '\n')))

/-- Modelled from the spec: the type-specific enrichment work of
spec section 4.2 — link: ExtractLinkMetadata then Summarize(excerpt) then
Tag(summary); text: Summarize(rawInput), Tag(rawInput), title from the
first line; voice: Transcribe then Summarize/Tag of the transcript;
image: ExtractTextFromImage then Tag, title falling back to "Untitled"
when extraction yields nothing. -/
def derivedOf (p : AIProvider) (ty : NoteType) (raw : String) : Derived :=
  match ty with
  | .link =>
      let m := p.extractLinkMetadata raw
      let s := p.summarize m.excerpt
      { title := m.title, thumbnail := m.thumbnail,
        sourcePlatform := m.sourcePlatform, summary := s,
        tags := p.tag s, rawContent := "" }
  | .text =>
      { title := firstLine raw, thumbnail := "", sourcePlatform := "",
        summary := p.summarize raw, tags := p.tag raw, rawContent := "" }
  | .voice =>
      let tr := p.transcribe raw
      { title := firstLine tr, thumbnail := "", sourcePlatform := "",
        summary := p.summarize tr, tags := p.tag tr, rawContent := tr }
  | .image =>
      let tx := p.extractTextFromImage raw
      { title := if tx == "" then "Untitled" else firstLine tx,
        thumbnail := "", sourcePlatform := "",
        summary := p.summarize tx, tags := p.tag tx, rawContent := tx }

/-- Modelled from the spec: one successful enrichment attempt, committed
as a single write — derived fields are overwritten wholesale from the
immutable `type`/`rawInput` (never appended), the user-supplied title is
never clobbered, and the status becomes `ready`
(spec section 4.2). -/
def enrich (p : AIProvider) (n : Note) : Note :=
  let d := derivedOf p n.type n.rawInput
  { n with title := n.userTitle.getD d.title,
           thumbnailUrl := d.thumbnail,
           sourcePlatform := d.sourcePlatform,
           summary := d.summary,
           tags := d.tags,
           rawContent := d.rawContent,
           status := .ready }

/-- `iterEnrich p k n` runs the enrichment routine `k` times on `n`
(repeated attempts after retries). -/
def iterEnrich (p : AIProvider) : Nat → Note → Note
  | 0, n => n
  | k + 1, n => enrich p (iterEnrich p k n)

theorem enrich_idem (p : AIProvider) (n : Note) :
    enrich p (enrich p n) = enrich p n := by
  cases n
  rfl

theorem derivedOf_tags_nodup (p : AIProvider) (ty : NoteType) (raw : String) :
    (derivedOf p ty raw).tags.Nodup := by
  cases ty <;> exact p.tagNodup _

/-- C5: enrichment is idempotent — any positive number of repeated
attempts equals a single attempt (derived fields are overwritten
wholesale); in particular the summary is exactly the single-attempt
summary (never a concatenation) and the tag list is exactly the
single-attempt deduplicated tag list (never duplicated). -/
theorem C5_enrichment_idempotent (p : AIProvider) (n : Note) (k : Nat) :
    iterEnrich p (k + 1) n = enrich p n ∧
    (iterEnrich p (k + 1) n).summary = (enrich p n).summary ∧
    (iterEnrich p (k + 1) n).tags = (enrich p n).tags ∧
    (iterEnrich p (k + 1) n).tags.Nodup := by
  have hiter : iterEnrich p (k + 1) n = enrich p n := by
    induction k with
    | zero => rfl
    | succ k ih =>
        calc iterEnrich p (k + 2) n = enrich p (iterEnrich p (k + 1) n) := rfl
          _ = enrich p (enrich p n) := by rw [ih]
          _ = enrich p n := enrich_idem p n
  refine ⟨hiter, by rw [hiter], by rw [hiter], ?_⟩
  rw [hiter]
  show (derivedOf p n.type n.rawInput).tags.Nodup
  exact derivedOf_tags_nodup p n.type n.rawInput

/-! ### BackupCodec (claims C6 and C7)

Modelled from the spec, section 4.5: `Export(ownerId) -> versioned note
list` and `Import(ownerId, noteList) -> {imported, skipped, errors}`.
The frontend callers are `exportBackup`/`importBackup` in
`src/frontend/src/api.ts` and the settings screen handlers; the codec
itself is backend code absent from `src/`. -/

/-- Modelled from the spec: the versioned export payload — a snapshot of
all fields of all of the owner's notes plus a format version tag and a
count (spec sections 4.5 and 6). -/
structure Backup where
  version : Nat
  count : Nat
  notes : List Note
deriving DecidableEq, Repr

/-- Modelled from the spec: aggregate result of an import —
`{imported, skipped, errors}` (spec section 4.5). -/
structure ImportResult where
  imported : Nat
  skipped : Nat
  errors : Nat
deriving DecidableEq, Repr

/-- Modelled from the spec: `Export(ownerId)` is a pure read returning a
snapshot of the owner's notes (spec section 4.5). -/
def exportOwner (s : Store) (owner : String) : Backup :=
  let ns := listNotes s owner
  { version := 1, count := ns.length, notes := ns }

/-- An incoming backup entry: `none` stands for a malformed entry (missing
required fields), `some n` for a well-formed note record. -/
abbrev BackupEntry := Option Note

/-- Modelled from the spec: `Import(ownerId, noteList)` — idempotent by
id: an incoming note whose id already exists is skipped (not overwritten);
malformed entries are counted as errors and never abort the remaining
import; freshly imported notes are inserted verbatim, their recorded
status untouched and no enrichment re-triggered (spec section 4.5). -/
def importNotes (s : Store) : List BackupEntry → Store × ImportResult
  | [] => (s, { imported := 0, skipped := 0, errors := 0 })
  | none :: rest =>
      ((importNotes s rest).1,
        { (importNotes s rest).2 with
            errors := (importNotes s rest).2.errors + 1 })
  | some n :: rest =>
      if (lookup s n.id).isSome then
        ((importNotes s rest).1,
          { (importNotes s rest).2 with
              skipped := (importNotes s rest).2.skipped + 1 })
      else
        ((importNotes (s ++ [n]) rest).1,
          { (importNotes (s ++ [n]) rest).2 with
              imported := (importNotes (s ++ [n]) rest).2.imported + 1 })

theorem importNotes_fresh (ns : List Note) :
    ∀ acc : Store,
      (∀ n ∈ ns, lookup acc n.id = none) →
      (ns.map (fun n => n.id)).Nodup →
      (importNotes acc (ns.map some)).1 = acc ++ ns := by
  induction ns with
  | nil => intro acc _ _; simp [importNotes]
  | cons n ns ih =>
      intro acc hfresh hnd
      have hn : lookup acc n.id = none := hfresh n (by simp)
      simp only [List.map_cons, importNotes, hn, Option.isSome_none,
        Bool.false_eq_true, if_false]
      have hfresh' : ∀ m ∈ ns, lookup (acc ++ [n]) m.id = none := by
        intro m hm
        rw [lookup_append_of_none acc m.id (hfresh m (by simp [hm])) [n]]
        have hne : n.id ≠ m.id := by
          simp only [List.map_cons, List.nodup_cons] at hnd
          intro heq
          exact hnd.1 (List.mem_map.mpr ⟨m, hm, heq.symm⟩)
        simp [lookup, List.find?, hne]
      have hnd' : (ns.map (fun n => n.id)).Nodup := by
        simp only [List.map_cons, List.nodup_cons] at hnd
        exact hnd.2
      rw [ih (acc ++ [n]) hfresh' hnd']
      simp

/-- C6: exporting an owner's notes and importing the export into an empty
store reproduces the owner's note set exactly — same notes, all fields
included, in the same order; the export itself is the plain snapshot of
the owner's notes with its count. -/
theorem C6_export_import_roundtrip (s : Store) (owner : String)
    (hnd : (s.map (fun n => n.id)).Nodup) :
    (importNotes [] ((exportOwner s owner).notes.map some)).1 =
      listNotes s owner ∧
    (exportOwner s owner).notes = listNotes s owner ∧
    (exportOwner s owner).count = (listNotes s owner).length := by
  have hsub : List.Sublist ((listNotes s owner).map (fun n => n.id))
      (s.map (fun n => n.id)) :=
    List.Sublist.map _ (List.filter_sublist s)
  have hnd' : ((listNotes s owner).map (fun n => n.id)).Nodup :=
    List.Nodup.sublist hsub hnd
  have h := importNotes_fresh (listNotes s owner) []
    (fun n _ => rfl) hnd'
  refine ⟨?_, rfl, rfl⟩
  simpa [exportOwner] using h

/-- Concrete instance of C6: a two-note store round-trips through
export and import into an empty store. -/
theorem C6_export_import_roundtrip_witness :
    (importNotes []
        ((exportOwner
            [mkStub "id1" "o" NoteType.text "milk" none 0,
             mkStub "id2" "o" NoteType.link "http://a" (some "t") 1] "o").notes.map
          some)).1 =
      listNotes
        [mkStub "id1" "o" NoteType.text "milk" none 0,
         mkStub "id2" "o" NoteType.link "http://a" (some "t") 1] "o" :=
  (C6_export_import_roundtrip
    [mkStub "id1" "o" NoteType.text "milk" none 0,
     mkStub "id2" "o" NoteType.link "http://a" (some "t") 1] "o"
    (by decide)).1

theorem importNotes_extends (entries : List BackupEntry) :
    ∀ s : Store, ∃ tail : List Note, (importNotes s entries).1 = s ++ tail := by
  induction entries with
  | nil => intro s; exact ⟨[], by simp [importNotes]⟩
  | cons e rest ih =>
      intro s
      match e with
      | none =>
          obtain ⟨tail, ht⟩ := ih s
          exact ⟨tail, by simpa [importNotes] using ht⟩
      | some n =>
          by_cases hn : (lookup s n.id).isSome
          · obtain ⟨tail, ht⟩ := ih s
            exact ⟨tail, by simpa [importNotes, hn] using ht⟩
          · obtain ⟨tail, ht⟩ := ih (s ++ [n])
            refine ⟨n :: tail, ?_⟩
            simp only [importNotes, hn, if_false]
            rw [ht]
            simp

/-- C7: (a) an incoming note whose id already exists leaves the store
untouched and increments exactly the `skipped` count, the remaining batch
being processed as if the entry were absent; (b) a note already present
in the store is still found unchanged, under the same id, after any
import; (c) a malformed entry increments exactly the `errors` count,
leaves the store untouched and never aborts the remaining batch. -/
theorem C7_import_skips_existing :
    (∀ (s : Store) (n : Note) (rest : List BackupEntry),
        (lookup s n.id).isSome = true →
        (importNotes s (some n :: rest)).1 = (importNotes s rest).1 ∧
        (importNotes s (some n :: rest)).2.skipped =
          (importNotes s rest).2.skipped + 1 ∧
        (importNotes s (some n :: rest)).2.imported =
          (importNotes s rest).2.imported ∧
        (importNotes s (some n :: rest)).2.errors =
          (importNotes s rest).2.errors) ∧
    (∀ (s : Store) (entries : List BackupEntry) (id : String) (m : Note),
        lookup s id = some m →
        lookup (importNotes s entries).1 id = some m) ∧
    (∀ (s : Store) (rest : List BackupEntry),
        (importNotes s (none :: rest)).1 = (importNotes s rest).1 ∧
        (importNotes s (none :: rest)).2.errors =
          (importNotes s rest).2.errors + 1 ∧
        (importNotes s (none :: rest)).2.skipped =
          (importNotes s rest).2.skipped ∧
        (importNotes s (none :: rest)).2.imported =
          (importNotes s rest).2.imported) := by
  refine ⟨?_, ?_, ?_⟩
  · intro s n rest hn
    refine ⟨?_, ?_, ?_, ?_⟩ <;> simp [importNotes, hn]
  · intro s entries id m hm
    obtain ⟨tail, ht⟩ := importNotes_extends entries s
    rw [ht]
    exact lookup_append_of_some s id m hm tail
  · intro s rest
    refine ⟨?_, ?_, ?_, ?_⟩ <;> simp [importNotes]

/-- Concrete instance of C7: importing a batch holding an already-present
id, a malformed entry and a fresh note skips the duplicate, counts the
error, keeps the stored note byte-identical and still imports the fresh
note. -/
theorem C7_import_skips_existing_witness :
    (importNotes [mkStub "id1" "o" NoteType.text "milk" none 0]
        (some (mkStub "id1" "o" NoteType.text "other" none 5) ::
          [some (mkStub "id2" "o" NoteType.text "new" none 7)])).1 =
      (importNotes [mkStub "id1" "o" NoteType.text "milk" none 0]
        [some (mkStub "id2" "o" NoteType.text "new" none 7)]).1 ∧
    lookup (importNotes [mkStub "id1" "o" NoteType.text "milk" none 0]
        (some (mkStub "id1" "o" NoteType.text "other" none 5) ::
          [some (mkStub "id2" "o" NoteType.text "new" none 7)])).1 "id1" =
      some (mkStub "id1" "o" NoteType.text "milk" none 0) := by
  constructor
  · exact (C7_import_skips_existing.1
      [mkStub "id1" "o" NoteType.text "milk" none 0]
      (mkStub "id1" "o" NoteType.text "other" none 5)
      [some (mkStub "id2" "o" NoteType.text "new" none 7)] (by decide)).1
  · exact C7_import_skips_existing.2.1
      [mkStub "id1" "o" NoteType.text "milk" none 0]
      (some (mkStub "id1" "o" NoteType.text "other" none 5) ::
        [some (mkStub "id2" "o" NoteType.text "new" none 7)])
      "id1" (mkStub "id1" "o" NoteType.text "milk" none 0) (by decide)

/-! ### SearchEngine (claim C8)

The frontend guard is `handleSearch` in
`src/frontend/app/(tabs)/search.tsx` (lines 31-43): `if (!query.trim())
return;` issues no request at all for an empty or whitespace-only query.
The backend `Search(ownerId, query)` contract is modelled from the spec,
section 4.4. -/

/-- Whitespace as recognised by the JavaScript `String.prototype.trim`
(the characters that occur in queries: space, tab, newline, carriage
return). -/
def isWs (c : Char) : Bool :=
  decide (c = ' ') || decide (c = '\t') || decide (c = '\n') || decide (c = '\r')

/-- `query.trim()` of the source: the string with leading and trailing
whitespace removed. -/
def trimString (s : String) : String :=
  String.mk (((s.data.dropWhile isWs).reverse.dropWhile isWs).reverse)

/-- Embedded from `src/frontend/app/(tabs)/search.tsx`, `handleSearch`:
the request body sent to the search endpoint, or `none` when the guard
`if (!query.trim()) return;` fires and no request is made. -/
def handleSearchCall (query : String) : Option String :=
  if trimString query = "" then none else some (trimString query)

/-- Lower-cased copy of a string, for the case-insensitive fallback. -/
def toLowerStr (s : String) : String :=
  String.mk (s.data.map Char.toLower)

/-- Case-insensitive substring test used by the local fallback. -/
def containsCI (hay needle : String) : Bool :=
  decide (2 ≤ ((toLowerStr hay).splitOn (toLowerStr needle)).length)

/-- Number of the fields title/summary/tags of a note matched by the
query (spec section 4.4 fallback ranking key). -/
def matchCount (q : String) (n : Note) : Nat :=
  (if containsCI n.title q then 1 else 0) +
    (if containsCI n.summary q then 1 else 0) +
    (if n.tags.any (fun t => containsCI t q) then 1 else 0)

/-- Modelled from the spec: the local keyword fallback — case-insensitive
substring match over title/summary/tags, ranked by number of matched
fields then recency (spec section 4.4). -/
def localFallback (q : String) (ns : List Note) : List Note :=
  (ns.filter (fun n => decide (0 < matchCount q n))).mergeSort
    (fun a b =>
      decide (matchCount q b < matchCount q a) ||
        (decide (matchCount q b = matchCount q a) &&
          decide (b.createdAt ≤ a.createdAt)))

/-- Modelled from the spec: `Search(ownerId, query)` of the SearchEngine
(spec section 4.4) — empty or whitespace-only query returns the empty list
with no provider call; otherwise the owner's notes are ranked by one
`AIProvider.SemanticRank` call, falling back locally when the provider
fails.  The second component counts provider calls. -/
def searchNotes (p : AIProvider) (s : Store) (owner : String)
    (query : String) : List Note × Nat :=
  if trimString query = "" then ([], 0)
  else
    match p.semanticRank query (listNotes s owner) with
    | some ranked => (ranked, 1)
    | none => (localFallback (trimString query) (listNotes s owner), 1)

/-- C8: for an empty or whitespace-only query the backend search returns
the empty list and performs zero AIProvider calls, and the frontend
`handleSearch` guard issues no request at all. -/
theorem C8_empty_query_no_provider_call (p : AIProvider) (s : Store)
    (owner : String) (query : String) (h : trimString query = "") :
    searchNotes p s owner query = ([], 0) ∧ handleSearchCall query = none :=
  ⟨by simp [searchNotes, h], by simp [handleSearchCall, h]⟩

/-- A concrete AIProvider instance used by closed witnesses. -/
def sampleProvider : AIProvider :=
  { summarize := fun _ => "summary",
    extractLinkMetadata := fun _ =>
      { title := "t", thumbnail := "th", sourcePlatform := "web", excerpt := "e" },
    transcribe := fun _ => "transcript",
    extractTextFromImage := fun _ => "ocr",
    tag := fun _ => ["tag1"],
    semanticRank := fun _ _ => none,
    tagNodup := fun _ => List.nodup_singleton "tag1" }

/-- Concrete instance of C8: a whitespace-only query makes no provider
call and returns no notes, and the frontend sends no request. -/
theorem C8_empty_query_no_provider_call_witness :
    searchNotes sampleProvider [] "o" "   " = ([], 0) ∧
    handleSearchCall "   " = none :=
  C8_empty_query_no_provider_call sampleProvider [] "o" "   " (by decide)

/-! ### Failed enrichment is visible and non-destructive (claim C9)

Modelled from the spec, sections 4.2 and 7: the `processing → failed`
transition records `failureReason` and the note "remains visible with
whatever stub fields it had"; the frontend Note interface
(`src/unnamed/part_002`, lines 13-24) renders such notes in the list. -/

/-- Modelled from the spec: the `processing → failed` write — status
`failed`, `failureReason` recorded, `updatedAt` bumped, every other field
untouched (spec sections 4.2 and 7). -/
def markFailed (reason : String) (now : Nat) (n : Note) : Note :=
  { n with status := .failed, failureReason := reason, updatedAt := now }

/-- Modelled from the spec: NoteStore applying the failure write to the
note with the given id. -/
def storeMarkFailed (s : Store) (id reason : String) (now : Nat) : Store :=
  s.map (fun n => if n.id = id then markFailed reason now n else n)

theorem lookup_storeMarkFailed (s : Store) (id reason : String) (now : Nat) :
    lookup (storeMarkFailed s id reason now) id =
      (lookup s id).map (markFailed reason now) := by
  induction s with
  | nil => rfl
  | cons a s ih =>
      by_cases ha : a.id = id
      · simp [storeMarkFailed, lookup, List.find?, ha, markFailed]
      · simp only [storeMarkFailed, List.map_cons, ha, if_false, lookup,
          List.find?, decide_eq_false ha]
        exact ih

/-- C9: after a failed enrichment attempt the note still exists in the
store under its id, shows up in the owner's list with status `failed` and
the recorded `failureReason`, and every content field it had before the
failure — id, owner, type, raw input, user-supplied and displayed title,
thumbnail, summary, tags, platform, raw content, creation time — is
unchanged. -/
theorem C9_failed_note_visible (s : Store) (id reason : String) (now : Nat)
    (n : Note) (h : lookup s id = some n) :
    lookup (storeMarkFailed s id reason now) id =
      some (markFailed reason now n) ∧
    (markFailed reason now n).status = Status.failed ∧
    (markFailed reason now n).failureReason = reason ∧
    markFailed reason now n ∈
      listNotes (storeMarkFailed s id reason now) n.ownerId ∧
    (markFailed reason now n).id = n.id ∧
    (markFailed reason now n).ownerId = n.ownerId ∧
    (markFailed reason now n).type = n.type ∧
    (markFailed reason now n).rawInput = n.rawInput ∧
    (markFailed reason now n).userTitle = n.userTitle ∧
    (markFailed reason now n).title = n.title ∧
    (markFailed reason now n).thumbnailUrl = n.thumbnailUrl ∧
    (markFailed reason now n).summary = n.summary ∧
    (markFailed reason now n).tags = n.tags ∧
    (markFailed reason now n).sourcePlatform = n.sourcePlatform ∧
    (markFailed reason now n).rawContent = n.rawContent ∧
    (markFailed reason now n).createdAt = n.createdAt := by
  have hmem : n ∈ s := List.mem_of_find?_eq_some h
  have hid : n.id = id := by
    have := List.find?_some h
    simpa using this
  refine ⟨?_, rfl, rfl, ?_, rfl, rfl, rfl, rfl, rfl, rfl, rfl, rfl, rfl,
    rfl, rfl, rfl⟩
  · rw [lookup_storeMarkFailed, h]
    rfl
  · refine List.mem_filter.mpr ⟨?_, by simp [markFailed]⟩
    refine List.mem_map.mpr ⟨n, hmem, ?_⟩
    simp [hid]

/-- Concrete instance of C9: a one-note store after a permanent failure. -/
theorem C9_failed_note_visible_witness :
    lookup (storeMarkFailed [mkStub "id1" "o" NoteType.link "http://a"
        (some "my title") 0] "id1" "unreachable" 9) "id1" =
      some (markFailed "unreachable" 9
        (mkStub "id1" "o" NoteType.link "http://a" (some "my title") 0)) ∧
    (markFailed "unreachable" 9
        (mkStub "id1" "o" NoteType.link "http://a" (some "my title") 0)).title =
      (mkStub "id1" "o" NoteType.link "http://a" (some "my title") 0).title :=
  ⟨(C9_failed_note_visible
      [mkStub "id1" "o" NoteType.link "http://a" (some "my title") 0]
      "id1" "unreachable" 9
      (mkStub "id1" "o" NoteType.link "http://a" (some "my title") 0)
      (by decide)).1,
    (C9_failed_note_visible
      [mkStub "id1" "o" NoteType.link "http://a" (some "my title") 0]
      "id1" "unreachable" 9
      (mkStub "id1" "o" NoteType.link "http://a" (some "my title") 0)
      (by decide)).2.2.2.2.2.2.2.2.2.1⟩

/-! ### Capture screen request bodies (claim C10)

Embedded from `src/unnamed/part_004` (the capture screen): `handleSave`
(lines 128-152) for link and text mode, `saveVoiceNote` (lines 74-95) and
`handleImageCapture` (lines 97-126).  All four build the create-note body
with `title: title || undefined`; `JSON.stringify` drops keys whose value
is `undefined`, so the `title` key is present in the request exactly when
the entered title string is truthy, i.e. non-empty. -/

/-- Body of `POST /api/notes` as built by the capture screen and accepted
by `createNote` in `src/frontend/src/api.ts` (lines 60-79): the absent
optional keys are `none`. -/
structure CreateNoteBody where
  type : NoteType
  url : Option String := none
  title : Option String := none
  raw_content : Option String := none
  image_base64 : Option String := none
  audio_base64 : Option String := none
deriving DecidableEq, Repr

/-- The JavaScript expression `title || undefined` on a string state: the
empty string is the only falsy string, so it yields `undefined` (an absent
key after `JSON.stringify`) exactly when the title input is blank. -/
def titleOrUndefined (title : String) : Option String :=
  if title = "" then none else some title

/-- Embedded from `src/unnamed/part_004`, `handleSave`, link branch
(lines 128-152): blocked when `url.trim()` is empty, else
`createNote({type:'link', url: url.trim(), title: title || undefined})`. -/
def handleSaveLink (url title : String) : Option CreateNoteBody :=
  if trimString url = "" then none
  else some { type := .link, url := some (trimString url),
              title := titleOrUndefined title }

/-- Embedded from `src/unnamed/part_004`, `handleSave`, text branch
(lines 128-152): blocked when `textContent.trim()` is empty, else
`createNote({type:'text', raw_content: textContent.trim(),
title: title || undefined})`. -/
def handleSaveText (textContent title : String) : Option CreateNoteBody :=
  if trimString textContent = "" then none
  else some { type := .text, raw_content := some (trimString textContent),
              title := titleOrUndefined title }

/-- Embedded from `src/unnamed/part_004`, `saveVoiceNote` (lines 74-95):
`createNote({type:'voice', title: title || undefined,
audio_base64: base64})`. -/
def saveVoiceNote (base64 title : String) : CreateNoteBody :=
  { type := .voice, audio_base64 := some base64,
    title := titleOrUndefined title }

/-- Embedded from `src/unnamed/part_004`, `handleImageCapture`
(lines 97-126): `createNote({type:'image', title: title || undefined,
image_base64: base64})`. -/
def handleImageCapture (base64 title : String) : CreateNoteBody :=
  { type := .image, image_base64 := some base64,
    title := titleOrUndefined title }

/-- C10: in every create-note request the capture screen builds — link,
text, voice or image — the `title` key is present exactly when the entered
title string is non-empty, in which case it carries that string verbatim;
a blank title input leaves the key absent. -/
theorem C10_title_iff_nonempty (title : String) :
    ((titleOrUndefined title).isSome ↔ title ≠ "") ∧
    (title ≠ "" → titleOrUndefined title = some title) ∧
    (title = "" → titleOrUndefined title = none) ∧
    (∀ url b, handleSaveLink url title = some b →
        b.title = titleOrUndefined title) ∧
    (∀ txt b, handleSaveText txt title = some b →
        b.title = titleOrUndefined title) ∧
    (∀ a, (saveVoiceNote a title).title = titleOrUndefined title) ∧
    (∀ i, (handleImageCapture i title).title = titleOrUndefined title) := by
  refine ⟨?_, ?_, ?_, ?_, ?_, fun a => rfl, fun i => rfl⟩
  · by_cases h : title = "" <;> simp [titleOrUndefined, h]
  · intro h; simp [titleOrUndefined, h]
  · intro h; simp [titleOrUndefined, h]
  · intro url b hb
    by_cases hu : trimString url = ""
    · simp [handleSaveLink, hu] at hb
    · simp only [handleSaveLink, hu, if_false, Option.some_inj] at hb
      rw [← hb]
  · intro txt b hb
    by_cases ht : trimString txt = ""
    · simp [handleSaveText, ht] at hb
    · simp only [handleSaveText, ht, if_false, Option.some_inj] at hb
      rw [← hb]

/-- Concrete instance of C10: a saved link with a typed title carries it;
one with a blank title input has no `title` key. -/
theorem C10_title_iff_nonempty_witness :
    ((titleOrUndefined "My title").isSome ↔ "My title" ≠ "") ∧
    (∀ b, handleSaveLink "http://a" "" = some b →
        b.title = titleOrUndefined "") ∧
    titleOrUndefined "" = none :=
  ⟨(C10_title_iff_nonempty "My title").1,
    fun b hb => (C10_title_iff_nonempty "").2.2.2.1 "http://a" b hb,
    (C10_title_iff_nonempty "").2.2.1 rfl⟩
